import Mathlib

/-!
Verification development for the prophit transaction-sampling and
feature-extraction core (`backend/app/services/sampling.py`,
`backend/app/services/features.py`, `backend/app/models/transaction.py`).

Modelling conventions (shallow embedding of the Python source):
* Timestamps (timezone-aware `datetime` values) are modelled as `Int`
  seconds since the Unix epoch; `timedelta(days = n)` is `n * 86400`.
* `amount` is modelled as `Int` (the Python source stores a float; no
  claim under verification depends on fractional amounts, and `str(x)`
  of a float differs from `toString (x : Int)` only in rendered length,
  which the claims never inspect).
* `balance_after` is modelled as `Option ℚ` (exact rationals standing in
  for Python floats; the trend thresholds 1.05 and 0.95 become 21/20 and
  19/20).
* Python dicts with present/absent keys are modelled as structures with
  `Option` fields where a key can be absent (`none` = key not present).
* Python object identity `id(tx)` is modelled by an explicit per-object
  surrogate field `oid`; pydantic `__eq__` (field-wise equality, used by
  `tx in pool`) is modelled by `pyEq`, which ignores `oid`.
* Python's stable sorts (`sorted`, `list.sort`) are modelled by a stable
  insertion sort `pySorted`; stability plus the comparison key determines
  the output uniquely, as in CPython.
-/

/-- Identity surrogate used by the sampler for de-duplication: a truthy
`id` string, otherwise the object identity (`tx.id or id(tx)` in the
source). -/
inductive TxKey where
  | idStr : String → TxKey
  | objId : Nat → TxKey
deriving DecidableEq, Repr

/-- Embedding of `app.models.transaction.Transaction`. `oid` is the
object-identity surrogate (not a pydantic field). -/
structure Transaction where
  oid : Nat
  id : Option String
  timestamp : Int
  amount : Int
  currency : String
  description : String
  category : Option String
  balance_after : Option ℚ
deriving DecidableEq, Repr

/-- A fixed default transaction, used only as the `headD` fallback in
statements about list heads (never reached when the list is non-empty). -/
def dfltTx : Transaction :=
  { oid := 0, id := none, timestamp := 0, amount := 0, currency := "",
    description := "", category := none, balance_after := none }

/-- `tx.id or id(tx)`: the empty string and `None` are falsy in Python,
so both fall back to the object identity. -/
def key (tx : Transaction) : TxKey :=
  match tx.id with
  | some s => if s = "" then TxKey.objId tx.oid else TxKey.idStr s
  | none => TxKey.objId tx.oid

/-- Pydantic `__eq__` on `Transaction`: field-wise equality over the model
fields, ignoring the object-identity surrogate. Used by `tx in pool`. -/
def pyEq (a b : Transaction) : Bool :=
  decide (a.id = b.id ∧ a.timestamp = b.timestamp ∧ a.amount = b.amount ∧
    a.currency = b.currency ∧ a.description = b.description ∧
    a.category = b.category ∧ a.balance_after = b.balance_after)

/-- Python's `tx in pool` membership test (field-wise equality). -/
def poolMem (tx : Transaction) (pool : List Transaction) : Bool :=
  pool.any (fun t => pyEq tx t)

/-- Sampler configuration (`TransactionSampler.__init__`); all four
settings are counts or sizes, hence naturals. -/
structure SamplerConfig where
  top_x : Nat
  stratified_n : Nat
  recency_days : Nat
  target_char_budget : Nat
deriving DecidableEq, Repr

/-- The stats dict returned by `TransactionSampler.sample`. `char_used`
is `none` when the key is absent from the dict (the empty-input paths of
the source omit it); the date-range fields are `none` when the dict holds
`None`. -/
structure SampleStats where
  total_transactions : Nat
  sampled_count : Nat
  date_range_start : Option Int
  date_range_end : Option Int
  top_x_count : Nat
  stratified_count : Nat
  recency_count : Nat
  char_used : Option Nat
deriving DecidableEq, Repr

/-- Two-digit zero-padded rendering of a natural (strftime `%m`, `%d`,
`%H`, `%M`). -/
def pad2 (n : Nat) : String :=
  if n < 10 then "0" ++ toString n else toString n

/-- Four-digit zero-padded rendering (strftime `%Y`). -/
def pad4 (n : Nat) : String :=
  if n < 10 then "000" ++ toString n
  else if n < 100 then "00" ++ toString n
  else if n < 1000 then "0" ++ toString n
  else toString n

/-- Proleptic-Gregorian civil date from a count of days since 1970-01-01
(the standard days-from-civil inverse); returns (year, month, day). -/
def civilFromDays (z0 : Int) : Int × Nat × Nat :=
  let z := z0 + 719468
  let era : Int := z.fdiv 146097
  let doe : Nat := (z - era * 146097).toNat
  let yoe : Nat := (doe - doe / 1460 + doe / 36524 - doe / 146096) / 365
  let y : Int := era * 400 + yoe
  let doy : Nat := doe - (365 * yoe + yoe / 4 - yoe / 100)
  let mp : Nat := (5 * doy + 2) / 153
  let d : Nat := doy - (153 * mp + 2) / 5 + 1
  let m : Nat := if mp < 10 then mp + 3 else mp - 9
  (if m ≤ 2 then y + 1 else y, m, d)

/-- `timestamp.strftime("%Y-%m-%d")` on an epoch-seconds instant. -/
def strftimeYMD (t : Int) : String :=
  let c := civilFromDays (t.fdiv 86400)
  pad4 c.1.toNat ++ "-" ++ pad2 c.2.1 ++ "-" ++ pad2 c.2.2

/-- `timestamp.strftime("%Y-%m-%d %H:%M")` on an epoch-seconds instant. -/
def strftimeYMDHM (t : Int) : String :=
  let secs := (t - t.fdiv 86400 * 86400).toNat
  strftimeYMD t ++ " " ++ pad2 (secs / 3600) ++ ":" ++ pad2 (secs % 3600 / 60)

/-- Python `s or dflt` for strings (empty string is falsy). -/
def pyOrStr (s dflt : String) : String :=
  if s = "" then dflt else s

/-- One line of the canonical compact encoding
(`TransactionSampler.to_compact_string`, loop body):
`date|amount|currency|category|description`. -/
def encodeLine (tx : Transaction) : String :=
  strftimeYMD tx.timestamp ++ "|" ++ toString tx.amount ++ "|" ++
    pyOrStr tx.currency "USD" ++ "|" ++ tx.category.getD "" ++ "|" ++
    pyOrStr tx.description ""

/-- `TransactionSampler.to_compact_string`: pipe-delimited lines joined by
a single newline. -/
def toCompactString (txs : List Transaction) : String :=
  String.intercalate "\n" (txs.map encodeLine)

/-- Stable insertion of `x` into `l`: `x` goes before the first element it
compares `le` to, so elements equal under the key keep their original
relative order (CPython sort stability). -/
def insertStable {α : Type} (le : α → α → Bool) (x : α) :
    List α → List α
  | [] => [x]
  | y :: ys => if le x y then x :: y :: ys else y :: insertStable le x ys

/-- Stable sort modelling Python's `sorted` / `list.sort` with a key:
`le a b` holds when `a` may come no later than `b`. -/
def pySorted {α : Type} (le : α → α → Bool) :
    List α → List α
  | [] => []
  | x :: xs => insertStable le x (pySorted le xs)

/-- Ascending-timestamp comparison (`key=lambda tx: tx.timestamp`). -/
def tsLe (a b : Transaction) : Bool :=
  decide (a.timestamp ≤ b.timestamp)

/-- Descending-absolute-amount comparison
(`key=lambda tx: abs(tx.amount), reverse=True`): `a` may precede `b` when
`|a.amount| ≥ |b.amount|`; ties keep original order. -/
def amountLe (a b : Transaction) : Bool :=
  decide (b.amount.natAbs ≤ a.amount.natAbs)

/-- `reference_date = as_of if as_of else datetime.now(timezone.utc)`:
the ambient clock is passed explicitly as `now`. -/
def referenceDate (asOf : Option Int) (now : Int) : Int :=
  asOf.getD now

/-- `recency_cutoff = reference_date - timedelta(days=self.recency_days)`. -/
def recencyCutoff (cfg : SamplerConfig) (asOf : Option Int) (now : Int) : Int :=
  referenceDate asOf now - (cfg.recency_days : Int) * 86400

/-- The Recent pool: `[tx for tx in windowed if tx.timestamp >= recency_cutoff]`
(in `sample`, `windowed` is the input list unchanged). -/
def recentPool (cfg : SamplerConfig) (txs : List Transaction)
    (asOf : Option Int) (now : Int) : List Transaction :=
  txs.filter (fun tx => decide (recencyCutoff cfg asOf now ≤ tx.timestamp))

/-- The Top-X pool: stable sort by descending `abs(amount)`, then the
first `top_x` elements. -/
def topXPool (cfg : SamplerConfig) (txs : List Transaction) : List Transaction :=
  (pySorted amountLe txs).take cfg.top_x

/-- Insert a transaction into the insertion-ordered category dict
(`by_category[tx.category].append(tx)`, with dict insertion order). -/
def addToCat : List (String × List Transaction) → String → Transaction →
    List (String × List Transaction)
  | [], c, tx => [(c, [tx])]
  | (c', l) :: rest, c, tx =>
    if c' = c then (c', l ++ [tx]) :: rest else (c', l) :: addToCat rest c tx

/-- The grouping loop of `_stratified_sample`: transactions with a truthy
category go into the insertion-ordered `by_category` dict, the rest into
`uncategorized`. -/
def groupByCategory (txs : List Transaction) :
    List (String × List Transaction) × List Transaction :=
  txs.foldl
    (fun acc tx =>
      match tx.category with
      | some c => if c = "" then (acc.1, acc.2 ++ [tx]) else (addToCat acc.1 c tx, acc.2)
      | none => (acc.1, acc.2 ++ [tx]))
    ([], [])

/-- Every `step`-th element of `l` (`range(0, len(l), step)` indexing, for
`step ≥ 1` as guaranteed by the `max(1, ...)` at every call site). -/
def everyNth (l : List Transaction) (step : Nat) : List Transaction :=
  ((l.enum).filter (fun p => p.1 % step == 0)).map (fun p => p.2)

/-- `for x in items: if len(sampled) < n: sampled.append(x)`. -/
def appendCapped (n : Nat) (acc items : List Transaction) : List Transaction :=
  items.foldl (fun a x => if a.length < n then a ++ [x] else a) acc

/-- `TransactionSampler._stratified_sample`. -/
def stratifiedSample (txs : List Transaction) (n : Nat) : List Transaction :=
  if txs.length ≤ n then txs
  else
    let g := groupByCategory txs
    let byCat := g.1
    let uncat := g.2
    let categories := byCat.map (fun p => p.1)
    let spc := if categories = [] then n else max 1 (n / (categories.length + 1))
    let sampled := byCat.foldl
      (fun acc p =>
        appendCapped n acc (everyNth (pySorted tsLe p.2) (max 1 (p.2.length / spc))))
      []
    let sampled2 :=
      if uncat ≠ [] ∧ sampled.length < n then
        appendCapped n sampled
          (everyNth (pySorted tsLe uncat) (max 1 (uncat.length / (n - sampled.length))))
      else sampled
    sampled2.take n

/-- One strategy pass of the union loop in `sample`: first-seen-wins
de-duplication by `key`, threading the seen-key set and the accumulator. -/
def dedupPass : List TxKey → List Transaction → List Transaction →
    List TxKey × List Transaction
  | seen, acc, [] => (seen, acc)
  | seen, acc, tx :: rest =>
    if key tx ∈ seen then dedupPass seen acc rest
    else dedupPass (key tx :: seen) (acc ++ [tx]) rest

/-- The three union passes of `sample`: Recent pool first, then Top-X,
then Stratified, with first-seen-wins de-duplication. -/
def unionPools (recent topx strat : List Transaction) : List Transaction :=
  let p1 := dedupPass [] [] recent
  let p2 := dedupPass p1.1 p1.2 topx
  let p3 := dedupPass p2.1 p2.2 strat
  p3.2

/-- The de-duplicated union of the three pools for a given input. -/
def unionOf (cfg : SamplerConfig) (txs : List Transaction)
    (asOf : Option Int) (now : Int) : List Transaction :=
  unionPools (recentPool cfg txs asOf now) (topXPool cfg txs)
    (stratifiedSample txs cfg.stratified_n)

/-- `sampled_list.sort(key=lambda tx: tx.timestamp)`: the chronologically
sorted union handed to `_enforce_budget`. -/
def sortedUnionOf (cfg : SamplerConfig) (txs : List Transaction)
    (asOf : Option Int) (now : Int) : List Transaction :=
  pySorted tsLe (unionOf cfg txs asOf now)

/-- `would_fit` in `_enforce_budget`: does appending `tx` keep the
canonical compact encoding within the character budget? -/
def wouldFit (cfg : SamplerConfig) (result : List Transaction)
    (tx : Transaction) : Bool :=
  decide ((toCompactString (result ++ [tx])).length ≤ cfg.target_char_budget)

/-- One priority pass of `_enforce_budget`:
`for tx in pass: if would_fit(tx): result.append(tx) else: break`. -/
def addPass (cfg : SamplerConfig) :
    List Transaction → List Transaction → List Transaction
  | result, [] => result
  | result, tx :: rest =>
    if wouldFit cfg result tx then addPass cfg (result ++ [tx]) rest else result

/-- `TransactionSampler._enforce_budget`. The classification loop appends
each transaction of `sampledList` to exactly one priority tier, in list
order, which is the corresponding `filter`; the four passes then run in
priority order. The `rcutoff` parameter is passed by the source but
unused by its body. -/
def enforceBudget (cfg : SamplerConfig) (sampledList recent topx strat :
    List Transaction) (_rcutoff : Int) : List Transaction :=
  let recentSet := recent.map key
  let topSet := topx.map key
  let stratSet := strat.map key
  let p1 := sampledList.filter (fun tx => decide (key tx ∈ recentSet))
  let p2 := sampledList.filter
    (fun tx => decide (¬ key tx ∈ recentSet ∧ key tx ∈ topSet))
  let p3 := sampledList.filter
    (fun tx => decide (¬ key tx ∈ recentSet ∧ ¬ key tx ∈ topSet ∧ key tx ∈ stratSet))
  let p4 := sampledList.filter
    (fun tx => decide (¬ key tx ∈ recentSet ∧ ¬ key tx ∈ topSet ∧ ¬ key tx ∈ stratSet))
  addPass cfg (addPass cfg (addPass cfg (addPass cfg [] p1) p2) p3) p4

/-- Priority tier 1 (the Recent tier) handed to the first budget pass. -/
def tier1 (cfg : SamplerConfig) (txs : List Transaction)
    (asOf : Option Int) (now : Int) : List Transaction :=
  (sortedUnionOf cfg txs asOf now).filter
    (fun tx => decide (key tx ∈ (recentPool cfg txs asOf now).map key))

/-- `TransactionSampler.sample`. The `_windowDays` parameter is accepted
but, as in the source, the input is used as already window-filtered; the
second emptiness check of the source (on `windowed`) is kept even though
it is unreachable. -/
def sample (cfg : SamplerConfig) (txs : List Transaction) (_windowDays : Nat)
    (asOf : Option Int) (now : Int) : List Transaction × SampleStats :=
  if txs = [] then
    ([], { total_transactions := 0, sampled_count := 0, date_range_start := none,
           date_range_end := none, top_x_count := 0, stratified_count := 0,
           recency_count := 0, char_used := none })
  else
    let windowed := txs
    if windowed = [] then
      ([], { total_transactions := txs.length, sampled_count := 0,
             date_range_start := (txs.map (fun tx => tx.timestamp)).min?,
             date_range_end := (txs.map (fun tx => tx.timestamp)).max?,
             top_x_count := 0, stratified_count := 0,
             recency_count := 0, char_used := none })
    else
      let recent := recentPool cfg txs asOf now
      let topx := topXPool cfg txs
      let strat := stratifiedSample txs cfg.stratified_n
      let result := enforceBudget cfg (sortedUnionOf cfg txs asOf now)
        recent topx strat (recencyCutoff cfg asOf now)
      (result,
        { total_transactions := txs.length,
          sampled_count := result.length,
          date_range_start := (windowed.map (fun tx => tx.timestamp)).min?,
          date_range_end := (windowed.map (fun tx => tx.timestamp)).max?,
          top_x_count := (result.filter (fun tx => poolMem tx topx)).length,
          stratified_count := (result.filter (fun tx => poolMem tx strat)).length,
          recency_count := recent.length,
          char_used := some (toCompactString result).length })

/-- The dict returned by `FeatureExtractor.extract_balance_health`. -/
structure BalanceHealth where
  min_balance_30d : Option ℚ
  avg_balance : Option ℚ
  max_balance_30d : Option ℚ
  overdraft_count : Nat
  balance_trend : String
deriving DecidableEq, Repr

/-- The lookback filter of `extract_balance_health`:
`[tx for tx in transactions if tx.timestamp >= cutoff]` with
`cutoff = reference_date - timedelta(days=days)`. -/
def windowFiltered (txs : List Transaction) (days : Nat)
    (asOf : Option Int) (now : Int) : List Transaction :=
  txs.filter
    (fun tx => decide (referenceDate asOf now - (days : Int) * 86400 ≤ tx.timestamp))

/-- `FeatureExtractor.extract_balance_health`. -/
def extractBalanceHealth (txs : List Transaction) (days : Nat)
    (asOf : Option Int) (now : Int) : BalanceHealth :=
  if txs = [] then
    { min_balance_30d := none, avg_balance := none, max_balance_30d := none,
      overdraft_count := 0, balance_trend := "unknown" }
  else
    let recent := windowFiltered txs days asOf now
    match recent.filterMap (fun tx => tx.balance_after) with
    | [] =>
      { min_balance_30d := none, avg_balance := none, max_balance_30d := none,
        overdraft_count := 0, balance_trend := "unknown" }
    | b :: bs =>
      let balances := b :: bs
      let minB := bs.foldl min b
      let maxB := bs.foldl max b
      let avgB := balances.sum / (balances.length : ℚ)
      let overdraft := (balances.filter (fun q => decide (q < 0))).length
      let trend :=
        if 4 ≤ balances.length then
          let firstHalf := balances.take (balances.length / 2)
          let secondHalf := balances.drop (balances.length / 2)
          let firstAvg := firstHalf.sum / (firstHalf.length : ℚ)
          let secondAvg := secondHalf.sum / (secondHalf.length : ℚ)
          if firstAvg * (21 / 20 : ℚ) < secondAvg then "increasing"
          else if secondAvg < firstAvg * (19 / 20 : ℚ) then "decreasing"
          else "stable"
        else "unknown"
      { min_balance_30d := some minB, avg_balance := some avgB,
        max_balance_30d := some maxB, overdraft_count := overdraft,
        balance_trend := trend }

/-- Mean of a list of rationals (division by zero is total in `ℚ`). -/
def meanQ (l : List ℚ) : ℚ :=
  l.sum / (l.length : ℚ)

/-- The trend classification applied to a balance sequence: split into two
halves, compare means against the ±5% thresholds; fewer than 4
observations give "unknown" unconditionally. -/
def trendClassify (l : List ℚ) : String :=
  if 4 ≤ l.length then
    let firstAvg := meanQ (l.take (l.length / 2))
    let secondAvg := meanQ (l.drop (l.length / 2))
    if firstAvg * (21 / 20 : ℚ) < secondAvg then "increasing"
    else if secondAvg < firstAvg * (19 / 20 : ℚ) then "decreasing"
    else "stable"
  else "unknown"

/-- The non-null balance observations inside the lookback window, in the
order the code encounters them (input order, not re-sorted). -/
def windowBalances (txs : List Transaction) (days : Nat)
    (asOf : Option Int) (now : Int) : List ℚ :=
  (windowFiltered txs days asOf now).filterMap (fun tx => tx.balance_after)

/-- The balance observations in timestamp order, as the specification
words describe them ("the timestamp-ordered balance sequence"); for
comparison with what the code computes. -/
def specOrderedBalances (txs : List Transaction) (days : Nat)
    (asOf : Option Int) (now : Int) : List ℚ :=
  (pySorted tsLe (windowFiltered txs days asOf now)).filterMap
    (fun tx => tx.balance_after)

/-- Per-category entry of the aggregation breakdown maps. -/
structure CatData where
  count : Nat
  total : ℚ
deriving DecidableEq, Repr

/-- The dict returned by `FeatureExtractor.extract_aggregations`, as
consumed by `format_for_prompt`. -/
structure Aggregations where
  total_income : ℚ
  total_spending : ℚ
  net_flow : ℚ
  transaction_count : Nat
  avg_transaction : ℚ
  by_category : List (String × CatData)
  by_currency : List (String × CatData)
deriving DecidableEq, Repr

/-- Round a rational to an integer count of hundredths, ties to even
(the rounding used by Python's fixed-point float formatting). -/
def roundCents (q : ℚ) : Int :=
  let x := q * 100
  let f := x.floor
  let frac := x - (f : ℚ)
  if frac < (1 / 2 : ℚ) then f
  else if (1 / 2 : ℚ) < frac then f + 1
  else if f % 2 = 0 then f else f + 1

/-- Python `f"{q:.2f}"` on the exact rational model of the value. -/
def fmt2f (q : ℚ) : String :=
  let c := roundCents q
  let a := c.natAbs
  (if c < 0 then "-" else "") ++ toString (a / 100) ++ "." ++ pad2 (a % 100)

/-- Python truthiness of the optional balance (`None` and `0.0` are
falsy). -/
def pyTruthy (b : Option ℚ) : Bool :=
  match b with
  | none => false
  | some q => decide (q ≠ 0)

/-- One rendered line of the "SAMPLE TRANSACTIONS" section. The source's
conditional expression scopes over the whole implicitly-concatenated
f-string, so a falsy `balance_after` collapses the entire line to
"Balance: N/A". -/
def txLine (tx : Transaction) : String :=
  if pyTruthy tx.balance_after then
    strftimeYMDHM tx.timestamp ++ " | " ++ "$" ++ fmt2f (tx.amount : ℚ) ++ " " ++
      tx.currency ++ " | " ++ tx.description ++ " | " ++ "Category: " ++
      (match tx.category with
       | some c => if c = "" then "N/A" else c
       | none => "N/A") ++ " | " ++ "Balance: $" ++
      fmt2f (tx.balance_after.getD 0)
  else "Balance: N/A"

/-- The `lines` list built by `FeatureExtractor.format_for_prompt`. -/
def formatLines (txs : List Transaction) (agg : Aggregations)
    (bh : BalanceHealth) : List String :=
  (["=== AGGREGATED STATISTICS ===",
    "Total Income: $" ++ fmt2f agg.total_income,
    "Total Spending: $" ++ fmt2f agg.total_spending,
    "Net Flow: $" ++ fmt2f agg.net_flow,
    "Transaction Count: " ++ toString agg.transaction_count,
    "Average Transaction: $" ++ fmt2f agg.avg_transaction,
    ""] ++
   (if bh.avg_balance ≠ none then
      ["=== BALANCE HEALTH ===",
       "Min Balance (30d): $" ++ fmt2f (bh.min_balance_30d.getD 0),
       "Avg Balance: $" ++ fmt2f (bh.avg_balance.getD 0),
       "Max Balance (30d): $" ++ fmt2f (bh.max_balance_30d.getD 0),
       "Overdraft Count: " ++ toString bh.overdraft_count,
       "Balance Trend: " ++ bh.balance_trend,
       ""]
    else []) ++
   (if agg.by_category ≠ [] then
      ((((pySorted (fun a b => decide (b.2.total ≤ a.2.total)) agg.by_category).take 10)).map
        (fun p => p.1 ++ ": $" ++ fmt2f p.2.total ++ " (" ++
          toString p.2.count ++ " transactions)")) ++ [""]
      |>.cons "=== SPENDING BY CATEGORY ==="
    else []) ++
   (["=== SAMPLE TRANSACTIONS ==="] ++ (txs.take 50).map txLine))

/-- `FeatureExtractor.format_for_prompt`: the built lines joined by
newlines. -/
def formatForPrompt (txs : List Transaction) (agg : Aggregations)
    (bh : BalanceHealth) : String :=
  String.intercalate "\n" (formatLines txs agg bh)

/-- Boolean check that a transaction list is in ascending timestamp
order. -/
def chronB : List Transaction → Bool
  | [] => true
  | [_] => true
  | a :: b :: rest => tsLe a b && chronB (b :: rest)

/-- Formalisation of the claim that once one candidate fails to fit, all
subsequent passes stop contributing: if the Recent pass was cut short,
the final result is exactly the Recent pass's contribution. -/
def C3claimProp (cfg : SamplerConfig) (txs : List Transaction) (wd : Nat)
    (asOf : Option Int) (now : Int) : Prop :=
  addPass cfg [] (tier1 cfg txs asOf now) ≠ tier1 cfg txs asOf now →
  (sample cfg txs wd asOf now).1 = addPass cfg [] (tier1 cfg txs asOf now)

/-- Formalisation of the recency-priority claim: if the Recent pool is
non-empty and the budget can fit at least one transaction, then any
result item belonging to neither the Recent nor the Top-X pool is
preceded in the result by a Recent-pool item. -/
def C4claimProp (cfg : SamplerConfig) (txs : List Transaction) (wd : Nat)
    (asOf : Option Int) (now : Int) : Prop :=
  recentPool cfg txs asOf now ≠ [] →
  (∃ tx ∈ txs, (toCompactString [tx]).length ≤ cfg.target_char_budget) →
  ∀ i (hi : i < (sample cfg txs wd asOf now).1.length),
    (poolMem ((sample cfg txs wd asOf now).1.get ⟨i, hi⟩)
        (recentPool cfg txs asOf now) = false ∧
     poolMem ((sample cfg txs wd asOf now).1.get ⟨i, hi⟩)
        (topXPool cfg txs) = false) →
    ∃ x ∈ (sample cfg txs wd asOf now).1.take i,
      poolMem x (recentPool cfg txs asOf now) = true

/-- Formalisation of the balance-trend claim on the spec's wording: with
at least 4 observations, the trend is "increasing" exactly when the mean
of the second half of the TIMESTAMP-ORDERED balance sequence exceeds the
first half's mean by more than 5%. -/
def C8claimProp (txs : List Transaction) (days : Nat) (asOf : Option Int)
    (now : Int) : Prop :=
  4 ≤ (specOrderedBalances txs days asOf now).length →
  ((extractBalanceHealth txs days asOf now).balance_trend = "increasing" ↔
    meanQ ((specOrderedBalances txs days asOf now).take
        ((specOrderedBalances txs days asOf now).length / 2)) * (21 / 20 : ℚ) <
      meanQ ((specOrderedBalances txs days asOf now).drop
        ((specOrderedBalances txs days asOf now).length / 2)))

/-- Default sampler configuration (the source's constructor defaults). -/
def cfgDefault : SamplerConfig :=
  { top_x := 50, stratified_n := 80, recency_days := 14,
    target_char_budget := 20000 }

/-- Counterexample configuration for the chronological-order claim:
`top_x = 1` so the Top-X pool is disjoint from the Recent pool. -/
def cfgTopOne : SamplerConfig :=
  { top_x := 1, stratified_n := 10, recency_days := 14,
    target_char_budget := 20000 }

/-- Old, large transaction (enters the Top-X pool only). -/
def txOldBig : Transaction :=
  { oid := 0, id := some "a", timestamp := 0, amount := -500,
    currency := "USD", description := "x", category := none,
    balance_after := none }

/-- Recent, small transaction (enters the Recent pool only). -/
def txNewSmall : Transaction :=
  { oid := 1, id := some "b", timestamp := 8640000, amount := -10,
    currency := "USD", description := "y", category := none,
    balance_after := none }

/-- A 40-character description, making one encoded line exceed a budget
of 30 characters. -/
def descWide : String := "AAAAAAAAAAAAAAAAAAAAAAAAAAAAAAAAAAAAAAAA"

/-- Tight-budget configuration used for the pass-stopping counterexample. -/
def cfgTiny : SamplerConfig :=
  { top_x := 1, stratified_n := 10, recency_days := 14,
    target_char_budget := 30 }

/-- Recent transaction whose encoded line (59 chars) exceeds the budget
of `cfgTiny`. -/
def txRecentWide : Transaction :=
  { oid := 0, id := some "a", timestamp := 8640000, amount := -5,
    currency := "USD", description := descWide, category := none,
    balance_after := none }

/-- Old Top-X transaction whose encoded line (20 chars) fits the budget
of `cfgTiny`. -/
def txOldTop : Transaction :=
  { oid := 1, id := some "b", timestamp := 0, amount := -99,
    currency := "USD", description := "", category := none,
    balance_after := none }

/-- Recent transaction that is also the Top-X maximum but whose encoded
line exceeds the tight budget (for the recency-priority counterexample). -/
def txBigRecent : Transaction :=
  { oid := 0, id := some "a", timestamp := 8640000, amount := -999,
    currency := "USD", description := descWide, category := none,
    balance_after := none }

/-- Old, tiny transaction reachable only through the Stratified pool. -/
def txSmallOld : Transaction :=
  { oid := 1, id := some "b", timestamp := 0, amount := -1,
    currency := "USD", description := "", category := none,
    balance_after := none }

/-- First of four transactions listed in reverse chronological order
whose balances increase in input order but decrease in timestamp order. -/
def txBalA : Transaction :=
  { oid := 0, id := none, timestamp := 400000, amount := -1,
    currency := "USD", description := "b", category := none,
    balance_after := some 10 }

/-- Second balance-trend transaction (earlier, balance 10). -/
def txBalB : Transaction :=
  { oid := 1, id := none, timestamp := 300000, amount := -1,
    currency := "USD", description := "b", category := none,
    balance_after := some 10 }

/-- Third balance-trend transaction (earlier still, balance 20). -/
def txBalC : Transaction :=
  { oid := 2, id := none, timestamp := 200000, amount := -1,
    currency := "USD", description := "b", category := none,
    balance_after := some 20 }

/-- Fourth balance-trend transaction (earliest, balance 20). -/
def txBalD : Transaction :=
  { oid := 3, id := none, timestamp := 100000, amount := -1,
    currency := "USD", description := "b", category := none,
    balance_after := some 20 }

/-- A plain recent transaction used by several witnesses. -/
def txRec : Transaction :=
  { oid := 5, id := some "w", timestamp := 0, amount := -5,
    currency := "USD", description := "w", category := none,
    balance_after := none }

/-- A transaction with no balance snapshot, for the formatting witness. -/
def txNoBal : Transaction :=
  { oid := 6, id := none, timestamp := 0, amount := -5, currency := "USD",
    description := "d", category := none, balance_after := none }

/-- Trivial aggregation record for the formatting witness. -/
def aggW : Aggregations :=
  { total_income := 0, total_spending := 0, net_flow := 0,
    transaction_count := 0, avg_transaction := 0, by_category := [],
    by_currency := [] }

/-- Trivial balance-health record for the formatting witness. -/
def bhW : BalanceHealth :=
  { min_balance_30d := none, avg_balance := none, max_balance_30d := none,
    overdraft_count := 0, balance_trend := "unknown" }

theorem insertStable_perm {α : Type} (le : α → α → Bool) (x : α)
    (l : List α) : List.Perm (insertStable le x l) (x :: l) := by
  induction l with
  | nil => simp [insertStable]
  | cons y ys ih =>
    by_cases h : le x y
    · simp [insertStable, h]
    · simp only [insertStable, h, if_neg, Bool.false_eq_true, not_false_iff]
      exact List.Perm.trans (List.Perm.cons y ih) (List.Perm.swap x y ys)

theorem pySorted_perm {α : Type} (le : α → α → Bool) (l : List α) :
    List.Perm (pySorted le l) l := by
  induction l with
  | nil => simp [pySorted]
  | cons x xs ih =>
    exact List.Perm.trans (insertStable_perm le x (pySorted le xs))
      (List.Perm.cons x ih)

theorem mem_pySorted {α : Type} (le : α → α → Bool) (l : List α) (x : α) :
    x ∈ pySorted le l ↔ x ∈ l :=
  (pySorted_perm le l).mem_iff

theorem mem_insertStable {α : Type} (le : α → α → Bool) (x z : α)
    (l : List α) : z ∈ insertStable le x l ↔ z = x ∨ z ∈ l := by
  rw [(insertStable_perm le x l).mem_iff]
  simp

theorem insertStable_pairwise {α : Type} (le : α → α → Bool)
    (htot : ∀ a b, le a b = true ∨ le b a = true)
    (htr : ∀ a b c, le a b = true → le b c = true → le a c = true)
    (x : α) (l : List α) (hl : l.Pairwise (fun a b => le a b = true)) :
    (insertStable le x l).Pairwise (fun a b => le a b = true) := by
  induction l with
  | nil => simp [insertStable]
  | cons y ys ih =>
    rcases List.pairwise_cons.mp hl with ⟨hy, hys⟩
    by_cases h : le x y
    · simp only [insertStable, h, if_pos]
      refine List.pairwise_cons.mpr ⟨?_, hl⟩
      intro z hz
      rcases List.mem_cons.mp hz with hz | hz
      · rw [hz]; exact h
      · exact htr x y z h (hy z hz)
    · simp only [insertStable, h, Bool.false_eq_true, if_neg, not_false_iff]
      refine List.pairwise_cons.mpr ⟨?_, ih hys⟩
      intro z hz
      rcases (mem_insertStable le x z ys).mp hz with hz | hz
      · rw [hz]
        rcases htot x y with hxy | hyx
        · exact absurd hxy h
        · exact hyx
      · exact hy z hz

theorem pySorted_pairwise {α : Type} (le : α → α → Bool)
    (htot : ∀ a b, le a b = true ∨ le b a = true)
    (htr : ∀ a b c, le a b = true → le b c = true → le a c = true)
    (l : List α) :
    (pySorted le l).Pairwise (fun a b => le a b = true) := by
  induction l with
  | nil => simp [pySorted]
  | cons x xs ih => exact insertStable_pairwise le htot htr x (pySorted le xs) ih

theorem tsLe_total : ∀ a b : Transaction, tsLe a b = true ∨ tsLe b a = true := by
  intro a b
  simp only [tsLe, decide_eq_true_eq]
  exact Int.le_total a.timestamp b.timestamp

theorem tsLe_trans : ∀ a b c : Transaction,
    tsLe a b = true → tsLe b c = true → tsLe a c = true := by
  intro a b c hab hbc
  simp only [tsLe, decide_eq_true_eq] at hab hbc ⊢
  exact le_trans hab hbc

theorem addPass_budget (cfg : SamplerConfig) (p : List Transaction) :
    ∀ r : List Transaction,
      (toCompactString r).length ≤ cfg.target_char_budget →
      (toCompactString (addPass cfg r p)).length ≤ cfg.target_char_budget := by
  induction p with
  | nil => intro r h; simpa [addPass] using h
  | cons t ts ih =>
    intro r h
    by_cases hf : wouldFit cfg r t
    · simp only [addPass, hf, if_pos]
      exact ih (r ++ [t]) (by simpa [wouldFit, decide_eq_true_eq] using hf)
    · simpa [addPass, hf] using h

theorem addPass_decomp (cfg : SamplerConfig) (p : List Transaction) :
    ∀ r : List Transaction, ∃ q rest : List Transaction,
      p = q ++ rest ∧ addPass cfg r p = r ++ q ∧
      (rest = [] ∨ wouldFit cfg (r ++ q) (rest.headD dfltTx) = false) := by
  induction p with
  | nil =>
    intro r
    exact ⟨[], [], by simp, by simp [addPass], Or.inl rfl⟩
  | cons t ts ih =>
    intro r
    by_cases hf : wouldFit cfg r t
    · obtain ⟨q, rest, h1, h2, h3⟩ := ih (r ++ [t])
      refine ⟨t :: q, rest, by simp [h1], ?_, ?_⟩
      · simp only [addPass, hf, if_pos]
        rw [h2]
        simp
      · rcases h3 with h3 | h3
        · exact Or.inl h3
        · refine Or.inr ?_
          rw [← h3]
          congr 1
          simp
    · refine ⟨[], t :: ts, by simp, by simp [addPass, hf], Or.inr ?_⟩
      simpa using hf

theorem addPass_subset (cfg : SamplerConfig) (p r : List Transaction)
    (x : Transaction) (hx : x ∈ addPass cfg r p) : x ∈ r ∨ x ∈ p := by
  obtain ⟨q, rest, h1, h2, _⟩ := addPass_decomp cfg p r
  rw [h2] at hx
  rcases List.mem_append.mp hx with hx | hx
  · exact Or.inl hx
  · exact Or.inr (h1 ▸ List.mem_append.mpr (Or.inl hx))

theorem dedupPass_seen_mono (l : List Transaction) :
    ∀ (seen : List TxKey) (acc : List Transaction) (k : TxKey),
      k ∈ seen → k ∈ (dedupPass seen acc l).1 := by
  induction l with
  | nil => intro seen acc k hk; simpa [dedupPass] using hk
  | cons t ts ih =>
    intro seen acc k hk
    by_cases ht : key t ∈ seen
    · simp only [dedupPass, ht, if_pos]
      exact ih seen acc k hk
    · simp only [dedupPass, ht, if_neg, not_false_iff]
      exact ih (key t :: seen) (acc ++ [t]) k (List.mem_cons_of_mem _ hk)

theorem dedupPass_seen_of_mem (l : List Transaction) :
    ∀ (seen : List TxKey) (acc : List Transaction) (t : Transaction),
      t ∈ l → key t ∈ (dedupPass seen acc l).1 := by
  induction l with
  | nil => intro seen acc t ht; simp at ht
  | cons u us ih =>
    intro seen acc t ht
    rcases List.mem_cons.mp ht with ht | ht
    · by_cases hu : key u ∈ seen
      · simp only [dedupPass, hu, if_pos]
        exact ht ▸ dedupPass_seen_mono us seen acc (key u) hu
      · simp only [dedupPass, hu, if_neg, not_false_iff]
        exact ht ▸ dedupPass_seen_mono us (key u :: seen) (acc ++ [u]) (key u)
          (List.mem_cons_self _ _)
    · by_cases hu : key u ∈ seen
      · simp only [dedupPass, hu, if_pos]
        exact ih seen acc t ht
      · simp only [dedupPass, hu, if_neg, not_false_iff]
        exact ih (key u :: seen) (acc ++ [u]) t ht

theorem dedupPass_acc_mono (l : List Transaction) :
    ∀ (seen : List TxKey) (acc : List Transaction) (x : Transaction),
      x ∈ acc → x ∈ (dedupPass seen acc l).2 := by
  induction l with
  | nil => intro seen acc x hx; simpa [dedupPass] using hx
  | cons t ts ih =>
    intro seen acc x hx
    by_cases ht : key t ∈ seen
    · simp only [dedupPass, ht, if_pos]
      exact ih seen acc x hx
    · simp only [dedupPass, ht, if_neg, not_false_iff]
      exact ih (key t :: seen) (acc ++ [t]) x (List.mem_append.mpr (Or.inl hx))

theorem dedupPass_mem (l : List Transaction) :
    ∀ (seen : List TxKey) (acc : List Transaction) (x : Transaction),
      x ∈ (dedupPass seen acc l).2 →
      x ∈ acc ∨ (x ∈ l ∧ ¬ key x ∈ seen) := by
  induction l with
  | nil => intro seen acc x hx; exact Or.inl (by simpa [dedupPass] using hx)
  | cons t ts ih =>
    intro seen acc x hx
    by_cases ht : key t ∈ seen
    · simp only [dedupPass, ht, if_pos] at hx
      rcases ih seen acc x hx with h | ⟨h1, h2⟩
      · exact Or.inl h
      · exact Or.inr ⟨List.mem_cons_of_mem _ h1, h2⟩
    · simp only [dedupPass, ht, if_neg, not_false_iff] at hx
      rcases ih (key t :: seen) (acc ++ [t]) x hx with h | ⟨h1, h2⟩
      · rcases List.mem_append.mp h with h | h
        · exact Or.inl h
        · refine Or.inr ⟨List.mem_cons.mpr (Or.inl (List.mem_singleton.mp h)), ?_⟩
          rw [List.mem_singleton.mp h]
          exact ht
      · exact Or.inr ⟨List.mem_cons_of_mem _ h1, fun hk => h2 (List.mem_cons_of_mem _ hk)⟩

theorem dedupPass_key_covered (l : List Transaction) :
    ∀ (seen : List TxKey) (acc : List Transaction),
      (∀ k ∈ seen, ∃ x ∈ acc, key x = k) →
      ∀ k ∈ (dedupPass seen acc l).1, ∃ x ∈ (dedupPass seen acc l).2, key x = k := by
  induction l with
  | nil => intro seen acc hinv k hk; exact hinv k (by simpa [dedupPass] using hk)
  | cons t ts ih =>
    intro seen acc hinv k hk
    by_cases ht : key t ∈ seen
    · simp only [dedupPass, ht, if_pos] at hk ⊢
      exact ih seen acc hinv k hk
    · simp only [dedupPass, ht, if_neg, not_false_iff] at hk ⊢
      refine ih (key t :: seen) (acc ++ [t]) ?_ k hk
      intro k' hk'
      rcases List.mem_cons.mp hk' with hk' | hk'
      · exact ⟨t, List.mem_append.mpr (Or.inr (List.mem_singleton.mpr rfl)), hk'.symm⟩
      · obtain ⟨x, hx1, hx2⟩ := hinv k' hk'
        exact ⟨x, List.mem_append.mpr (Or.inl hx1), hx2⟩

theorem pyEq_refl (x : Transaction) : pyEq x x = true := by
  simp [pyEq]

theorem poolMem_of_mem (x : Transaction) (l : List Transaction)
    (h : x ∈ l) : poolMem x l = true :=
  List.any_eq_true.mpr ⟨x, h, pyEq_refl x⟩

theorem unionPools_mem_recent (re tp st : List Transaction) (x : Transaction)
    (hx : x ∈ unionPools re tp st) (hk : key x ∈ re.map key) : x ∈ re := by
  simp only [unionPools] at hx
  have hseen1 : key x ∈ (dedupPass [] [] re).1 := by
    obtain ⟨r, hr, hkr⟩ := List.mem_map.mp hk
    exact hkr ▸ dedupPass_seen_of_mem re [] [] r hr
  have hseen2 : key x ∈
      (dedupPass (dedupPass [] [] re).1 (dedupPass [] [] re).2 tp).1 :=
    dedupPass_seen_mono tp _ _ _ hseen1
  rcases dedupPass_mem st _ _ x hx with h | ⟨_, h2⟩
  · rcases dedupPass_mem tp _ _ x h with h' | ⟨_, h2'⟩
    · rcases dedupPass_mem re [] [] x h' with h'' | ⟨h1'', _⟩
      · simp at h''
      · exact h1''
    · exact absurd hseen1 h2'
  · exact absurd hseen2 h2

theorem unionPools_covers_recent (re tp st : List Transaction)
    (r : Transaction) (hr : r ∈ re) :
    ∃ x ∈ unionPools re tp st, key x = key r := by
  have h1 : key r ∈ (dedupPass [] [] re).1 :=
    dedupPass_seen_of_mem re [] [] r hr
  obtain ⟨x, hx1, hx2⟩ :=
    dedupPass_key_covered re [] [] (by simp) (key r) h1
  have hx3 : x ∈ (dedupPass (dedupPass [] [] re).1 (dedupPass [] [] re).2 tp).2 :=
    dedupPass_acc_mono tp _ _ x hx1
  have hx4 : x ∈ unionPools re tp st := by
    simp only [unionPools]
    exact dedupPass_acc_mono st _ _ x hx3
  exact ⟨x, hx4, hx2⟩

/-- C1: for every configuration, input list and reference instant, the
canonical compact encoding of the list returned by
`TransactionSampler.sample` has length at most `target_char_budget`
(pathological configurations included; an over-small budget yields an
empty result, never a budget violation). -/
theorem sample_budget_invariant (cfg : SamplerConfig) (txs : List Transaction)
    (wd : Nat) (asOf : Option Int) (now : Int) :
    (toCompactString (sample cfg txs wd asOf now).1).length ≤
      cfg.target_char_budget := by
  have hnil : (toCompactString []).length = 0 := rfl
  by_cases h : txs = []
  · subst h
    simp only [sample, if_pos]
    simpa using Nat.le_trans (Nat.le_of_eq hnil) (Nat.zero_le _)
  · have hres : (sample cfg txs wd asOf now).1 =
        enforceBudget cfg (sortedUnionOf cfg txs asOf now)
          (recentPool cfg txs asOf now) (topXPool cfg txs)
          (stratifiedSample txs cfg.stratified_n)
          (recencyCutoff cfg asOf now) := by
      simp [sample, h]
    rw [hres]
    simp only [enforceBudget]
    refine addPass_budget cfg _ _ (addPass_budget cfg _ _
      (addPass_budget cfg _ _ (addPass_budget cfg _ _ ?_)))
    exact Nat.le_trans (Nat.le_of_eq hnil) (Nat.zero_le _)

/-- C6 (counterexample): on empty input the stats dict has no `char_used`
key at all, so the claim that every numeric stat of §4.1 step 8 —
`char_used` included — equals 0 fails at this concrete input. -/
theorem sample_empty_char_used_missing :
    ¬ (sample cfgDefault [] 180 none 0).2.char_used = some 0 := by
  decide

/-- C6 (amended): `sample` on an empty input returns an empty sequence
and a stats record whose present numeric stats (`total_transactions`,
`sampled_count`, `top_x_count`, `stratified_count`, `recency_count`) are
all 0 and whose date-range fields are `None`; the `char_used` key is
absent from the record. -/
theorem sample_empty_stats (cfg : SamplerConfig) (wd : Nat)
    (asOf : Option Int) (now : Int) :
    sample cfg [] wd asOf now =
      ([], { total_transactions := 0, sampled_count := 0,
             date_range_start := none, date_range_end := none,
             top_x_count := 0, stratified_count := 0, recency_count := 0,
             char_used := none }) := rfl

/-- C7: `_stratified_sample` never returns more than `n` items, and
returns the input unchanged when its length is at most `n`. -/
theorem stratifiedSample_ceiling (txs : List Transaction) (n : Nat) :
    (stratifiedSample txs n).length ≤ n ∧
    (txs.length ≤ n → stratifiedSample txs n = txs) := by
  by_cases h : txs.length ≤ n
  · exact ⟨by simp [stratifiedSample, h], fun _ => by simp [stratifiedSample, h]⟩
  · constructor
    · simp only [stratifiedSample, h, if_neg, not_false_iff]
      rw [List.length_take]
      exact min_le_left _ _
    · intro hc
      exact absurd hc h

/-- C7 (witness): a singleton list with `n = 2` satisfies the length
hypothesis and is returned unchanged. -/
theorem stratifiedSample_ceiling_witness :
    [txRec].length ≤ 2 ∧ stratifiedSample [txRec] 2 = [txRec] :=
  ⟨by decide, (stratifiedSample_ceiling [txRec] 2).2 (by decide)⟩

/-- C9: `sample` is deterministic — identical configuration, input and
reference instant yield identical output, and the stratified sub-sample
is likewise a function of its inputs (no randomness anywhere). -/
theorem sample_deterministic (cfg cfg' : SamplerConfig)
    (txs txs' : List Transaction) (wd wd' : Nat) (asOf asOf' : Option Int)
    (now now' : Int) (h1 : cfg = cfg') (h2 : txs = txs') (h3 : wd = wd')
    (h4 : asOf = asOf') (h5 : now = now') :
    sample cfg txs wd asOf now = sample cfg' txs' wd' asOf' now' ∧
    stratifiedSample txs cfg.stratified_n =
      stratifiedSample txs' cfg'.stratified_n := by
  subst h1; subst h2; subst h3; subst h4; subst h5
  exact ⟨rfl, rfl⟩

/-- C9 (witness): determinism instantiated at a concrete input. -/
theorem sample_deterministic_witness :
    sample cfgDefault [txRec] 180 none 0 = sample cfgDefault [txRec] 180 none 0 ∧
    stratifiedSample [txRec] cfgDefault.stratified_n =
      stratifiedSample [txRec] cfgDefault.stratified_n :=
  sample_deterministic cfgDefault cfgDefault [txRec] [txRec] 180 180 none none
    0 0 rfl rfl rfl rfl rfl

/-- C5: for a non-empty input, the stats record of `sample` reports the
full input length, the result length, min/max timestamp over the full
input, the size of the entire Recent pool, the counts of result items
belonging (by Python equality) to the Top-X and Stratified pools, and
the exact canonical-encoding length of the result. (The empty-input
record is the subject of the separate empty-input claim.) -/
theorem sample_stats_spec (cfg : SamplerConfig) (txs : List Transaction)
    (wd : Nat) (asOf : Option Int) (now : Int) (h : txs ≠ []) :
    (sample cfg txs wd asOf now).2.total_transactions = txs.length ∧
    (sample cfg txs wd asOf now).2.sampled_count =
      (sample cfg txs wd asOf now).1.length ∧
    (sample cfg txs wd asOf now).2.date_range_start =
      (txs.map (fun tx => tx.timestamp)).min? ∧
    (sample cfg txs wd asOf now).2.date_range_end =
      (txs.map (fun tx => tx.timestamp)).max? ∧
    (sample cfg txs wd asOf now).2.recency_count =
      (recentPool cfg txs asOf now).length ∧
    (sample cfg txs wd asOf now).2.top_x_count =
      ((sample cfg txs wd asOf now).1.filter
        (fun tx => poolMem tx (topXPool cfg txs))).length ∧
    (sample cfg txs wd asOf now).2.stratified_count =
      ((sample cfg txs wd asOf now).1.filter
        (fun tx => poolMem tx (stratifiedSample txs cfg.stratified_n))).length ∧
    (sample cfg txs wd asOf now).2.char_used =
      some (toCompactString (sample cfg txs wd asOf now).1).length := by
  simp [sample, h]

/-- C5 (witness): the stats equations instantiated at a concrete
singleton input. -/
theorem sample_stats_spec_witness :
    ([txRec] : List Transaction) ≠ [] ∧
    ((sample cfgDefault [txRec] 180 none 0).2.total_transactions =
        [txRec].length ∧
      (sample cfgDefault [txRec] 180 none 0).2.sampled_count =
        (sample cfgDefault [txRec] 180 none 0).1.length ∧
      (sample cfgDefault [txRec] 180 none 0).2.date_range_start =
        ([txRec].map (fun tx => tx.timestamp)).min? ∧
      (sample cfgDefault [txRec] 180 none 0).2.date_range_end =
        ([txRec].map (fun tx => tx.timestamp)).max? ∧
      (sample cfgDefault [txRec] 180 none 0).2.recency_count =
        (recentPool cfgDefault [txRec] none 0).length ∧
      (sample cfgDefault [txRec] 180 none 0).2.top_x_count =
        ((sample cfgDefault [txRec] 180 none 0).1.filter
          (fun tx => poolMem tx (topXPool cfgDefault [txRec]))).length ∧
      (sample cfgDefault [txRec] 180 none 0).2.stratified_count =
        ((sample cfgDefault [txRec] 180 none 0).1.filter
          (fun tx => poolMem tx
            (stratifiedSample [txRec] cfgDefault.stratified_n))).length ∧
      (sample cfgDefault [txRec] 180 none 0).2.char_used =
        some (toCompactString (sample cfgDefault [txRec] 180 none 0).1).length) :=
  ⟨by decide, sample_stats_spec cfgDefault [txRec] 180 none 0 (by decide)⟩

/-- C2 (counterexample): with `top_x = 1`, an old large transaction and a
recent small one, `sample` returns the recent transaction before the old
one — the returned sequence is not in ascending timestamp order, because
`_enforce_budget` rebuilds the result tier by tier after the sort. -/
theorem sample_not_chronological :
    chronB (sample cfgTopOne [txOldBig, txNewSmall] 180 none 8640000).1 =
      false := by
  decide

/-- C2 (amended): the sequence returned by `sample` is the concatenation
of the four priority tiers' contributions, each of which is individually
in ascending timestamp order; the concatenation itself need not be
globally chronological. -/
theorem sample_tierwise_chronological (cfg : SamplerConfig)
    (txs : List Transaction) (wd : Nat) (asOf : Option Int) (now : Int) :
    ∃ q1 q2 q3 q4 : List Transaction,
      (sample cfg txs wd asOf now).1 = q1 ++ (q2 ++ (q3 ++ q4)) ∧
      q1.Pairwise (fun a b => tsLe a b = true) ∧
      q2.Pairwise (fun a b => tsLe a b = true) ∧
      q3.Pairwise (fun a b => tsLe a b = true) ∧
      q4.Pairwise (fun a b => tsLe a b = true) := by
  by_cases h : txs = []
  · exact ⟨[], [], [], [], by simp [h, sample], by simp, by simp, by simp,
      by simp⟩
  · have hres : (sample cfg txs wd asOf now).1 =
        enforceBudget cfg (sortedUnionOf cfg txs asOf now)
          (recentPool cfg txs asOf now) (topXPool cfg txs)
          (stratifiedSample txs cfg.stratified_n)
          (recencyCutoff cfg asOf now) := by
      simp [sample, h]
    have hSU : (sortedUnionOf cfg txs asOf now).Pairwise
        (fun a b => tsLe a b = true) :=
      pySorted_pairwise tsLe tsLe_total tsLe_trans _
    rw [hres]
    simp only [enforceBudget]
    obtain ⟨q1, r1, hp1, he1, _⟩ := addPass_decomp cfg
      ((sortedUnionOf cfg txs asOf now).filter
        (fun tx => decide (key tx ∈ (recentPool cfg txs asOf now).map key))) []
    obtain ⟨q2, r2, hp2, he2, _⟩ := addPass_decomp cfg
      ((sortedUnionOf cfg txs asOf now).filter
        (fun tx => decide (¬ key tx ∈ (recentPool cfg txs asOf now).map key ∧
          key tx ∈ (topXPool cfg txs).map key)))
      (addPass cfg []
        ((sortedUnionOf cfg txs asOf now).filter
          (fun tx => decide (key tx ∈ (recentPool cfg txs asOf now).map key))))
    obtain ⟨q3, r3, hp3, he3, _⟩ := addPass_decomp cfg
      ((sortedUnionOf cfg txs asOf now).filter
        (fun tx => decide (¬ key tx ∈ (recentPool cfg txs asOf now).map key ∧
          ¬ key tx ∈ (topXPool cfg txs).map key ∧
          key tx ∈ (stratifiedSample txs cfg.stratified_n).map key)))
      _
    obtain ⟨q4, r4, hp4, he4, _⟩ := addPass_decomp cfg
      ((sortedUnionOf cfg txs asOf now).filter
        (fun tx => decide (¬ key tx ∈ (recentPool cfg txs asOf now).map key ∧
          ¬ key tx ∈ (topXPool cfg txs).map key ∧
          ¬ key tx ∈ (stratifiedSample txs cfg.stratified_n).map key)))
      _
    refine ⟨q1, q2, q3, q4, ?_, ?_, ?_, ?_, ?_⟩
    · rw [he4, he3, he2, he1]
      simp
    · exact (List.Pairwise.filter _ hSU).sublist
        (hp1 ▸ List.sublist_append_left q1 r1)
    · exact (List.Pairwise.filter _ hSU).sublist
        (hp2 ▸ List.sublist_append_left q2 r2)
    · exact (List.Pairwise.filter _ hSU).sublist
        (hp3 ▸ List.sublist_append_left q3 r3)
    · exact (List.Pairwise.filter _ hSU).sublist
        (hp4 ▸ List.sublist_append_left q4 r4)

/-- C3 (counterexample): with a 30-character budget, the Recent pass is
cut short at its first (oversized) candidate, yet the Top-X pass still
still runs and accepts `txOldTop` — so a lower-priority pass contributes after
an earlier pass hit the budget, contradicting the claim that all
subsequent passes stop entirely. -/
theorem budget_pass_not_global_stop :
    ¬ C3claimProp cfgTiny [txRecentWide, txOldTop] 180 none 8640000 := by
  unfold C3claimProp
  decide

/-- C3 (amended): only the pass in which the non-fitting candidate occurs
stops: each priority pass (`addPass`, the per-tier loop of
`_enforce_budget`) contributes the greedy prefix of its tier up to its
own first non-fitting item, and each subsequent pass still runs
independently against the remaining budget. -/
theorem addPass_stops_within_pass (cfg : SamplerConfig)
    (p r : List Transaction) :
    ∃ q rest : List Transaction,
      p = q ++ rest ∧ addPass cfg r p = r ++ q ∧
      (rest = [] ∨ wouldFit cfg (r ++ q) (rest.headD dfltTx) = false) :=
  addPass_decomp cfg p r

/-- C8 (counterexample): four in-window balance observations arranged in
reverse chronological order: the code (which never re-sorts) reports
"increasing", while the claim's timestamp-ordered reading demands
"decreasing" — the stated equivalence fails at this input. -/
theorem balance_trend_not_timestamp_ordered :
    ¬ C8claimProp [txBalA, txBalB, txBalC, txBalD] 30 none 500000 := by
  unfold C8claimProp
  intro h
  have hlen : 4 ≤
      (specOrderedBalances [txBalA, txBalB, txBalC, txBalD] 30 none 500000).length := by
    decide
  have htrend : (extractBalanceHealth [txBalA, txBalB, txBalC, txBalD] 30 none
      500000).balance_trend = "increasing" := by
    have hfm : (windowFiltered [txBalA, txBalB, txBalC, txBalD] 30 none
        500000).filterMap (fun tx => tx.balance_after) = [10, 10, 20, 20] := by
      decide
    simp only [extractBalanceHealth, hfm]
    norm_num
    simp
  have hspec : specOrderedBalances [txBalA, txBalB, txBalC, txBalD] 30 none
      500000 = [20, 20, 10, 10] := by
    decide
  have hiff := h hlen
  rw [htrend, hspec] at hiff
  have hbad := hiff.mp rfl
  norm_num [meanQ] at hbad

/-- C8 (amended): the trend is classified on the balance sequence in
input order (the order transactions appear in the filtered list, which
the code never re-sorts): with at least 4 observations, "increasing"
when the second half's mean exceeds the first half's mean times 21/20,
"decreasing" when below 19/20 of it, "stable" otherwise, and "unknown"
unconditionally with fewer than 4 observations. -/
theorem balance_trend_input_order (txs : List Transaction) (days : Nat)
    (asOf : Option Int) (now : Int) :
    (extractBalanceHealth txs days asOf now).balance_trend =
      trendClassify (windowBalances txs days asOf now) := by
  by_cases h : txs = []
  · subst h
    simp [extractBalanceHealth, windowBalances, windowFiltered, trendClassify]
  · simp only [extractBalanceHealth, h, if_neg, not_false_iff, windowBalances]
    cases hfm : (windowFiltered txs days asOf now).filterMap
        (fun tx => tx.balance_after) with
    | nil => simp [trendClassify]
    | cons b bs => simp [trendClassify, meanQ]

/-- C10: in `format_for_prompt`, any of the first 50 transactions whose
`balance_after` is `None` or `0` renders as exactly the line
"Balance: N/A" — date, amount, currency, description and category are
all omitted, because the conditional expression scopes over the whole
implicitly-concatenated f-string — and the function totalises both
branches (it never raises). -/
theorem format_balance_na (txs : List Transaction) (agg : Aggregations)
    (bh : BalanceHealth) (tx : Transaction) (h1 : tx ∈ txs.take 50)
    (h2 : tx.balance_after = none ∨ tx.balance_after = some 0) :
    txLine tx = "Balance: N/A" ∧
    "Balance: N/A" ∈ formatLines txs agg bh ∧
    formatForPrompt txs agg bh =
      String.intercalate "\n" (formatLines txs agg bh) := by
  have hl : txLine tx = "Balance: N/A" := by
    rcases h2 with h2 | h2 <;> simp [txLine, pyTruthy, h2]
  refine ⟨hl, ?_, rfl⟩
  have hm : txLine tx ∈ (txs.take 50).map txLine :=
    List.mem_map_of_mem txLine h1
  rw [hl] at hm
  simp only [formatLines]
  exact List.mem_append.mpr (Or.inr (List.mem_append.mpr (Or.inr hm)))

/-- C10 (witness): the N/A collapse instantiated at a concrete
transaction with no balance snapshot. -/
theorem format_balance_na_witness :
    txNoBal ∈ ([txNoBal] : List Transaction).take 50 ∧
    (txNoBal.balance_after = none ∨ txNoBal.balance_after = some 0) ∧
    (txLine txNoBal = "Balance: N/A" ∧
      "Balance: N/A" ∈ formatLines [txNoBal] aggW bhW ∧
      formatForPrompt [txNoBal] aggW bhW =
        String.intercalate "\n" (formatLines [txNoBal] aggW bhW)) :=
  ⟨by decide, by decide,
    format_balance_na [txNoBal] aggW bhW txNoBal (by decide) (by decide)⟩

/-- C4 (counterexample): with a 30-character budget, a Recent pool whose
only member (also the Top-X maximum) is oversized, and a small
stratified-only transaction, the sample accepts the stratified-only
transaction while containing no Recent-pool transaction at all. -/
theorem recency_priority_fails :
    ¬ C4claimProp cfgTiny [txBigRecent, txSmallOld] 180 none 8640000 := by
  unfold C4claimProp
  decide

theorem fourPass_decomp (cfg : SamplerConfig)
    (p1 p2 p3 p4 : List Transaction) :
    ∃ s2 s3 s4 : List Transaction,
      addPass cfg (addPass cfg (addPass cfg (addPass cfg [] p1) p2) p3) p4 =
        addPass cfg [] p1 ++ (s2 ++ (s3 ++ s4)) := by
  obtain ⟨q2, r2, _, he2, _⟩ := addPass_decomp cfg p2 (addPass cfg [] p1)
  obtain ⟨q3, r3, _, he3, _⟩ := addPass_decomp cfg p3 _
  obtain ⟨q4, r4, _, he4, _⟩ := addPass_decomp cfg p4 _
  exact ⟨q2, q3, q4, by rw [he4, he3, he2]; simp⟩

/-- C4 (amended): if the Recent pool is non-empty and the budget fits the
chronologically first Recent-tier transaction on its own, then the
returned sample starts with a non-empty block consisting entirely of
Recent-pool transactions; in particular at least one Recent-pool
transaction is accepted, and it precedes every transaction belonging to
neither the Recent nor the Top-X pool. -/
theorem sample_recent_priority (cfg : SamplerConfig) (txs : List Transaction)
    (wd : Nat) (asOf : Option Int) (now : Int)
    (h1 : recentPool cfg txs asOf now ≠ [])
    (h2 : wouldFit cfg [] ((tier1 cfg txs asOf now).headD dfltTx) = true) :
    ∃ r1 rest : List Transaction,
      (sample cfg txs wd asOf now).1 = r1 ++ rest ∧ r1 ≠ [] ∧
      ∀ x ∈ r1, poolMem x (recentPool cfg txs asOf now) = true := by
  have htxs : txs ≠ [] := by
    intro h
    rw [h] at h1
    simp [recentPool] at h1
  have hres : (sample cfg txs wd asOf now).1 =
      enforceBudget cfg (sortedUnionOf cfg txs asOf now)
        (recentPool cfg txs asOf now) (topXPool cfg txs)
        (stratifiedSample txs cfg.stratified_n)
        (recencyCutoff cfg asOf now) := by
    simp [sample, htxs]
  obtain ⟨r0, hr0⟩ := List.exists_mem_of_ne_nil _ h1
  obtain ⟨x0, hx0u, hx0k⟩ := unionPools_covers_recent
    (recentPool cfg txs asOf now) (topXPool cfg txs)
    (stratifiedSample txs cfg.stratified_n) r0 hr0
  have hx0su : x0 ∈ sortedUnionOf cfg txs asOf now := by
    simp only [sortedUnionOf]
    rw [mem_pySorted]
    simpa [unionOf] using hx0u
  have hx0t : x0 ∈ tier1 cfg txs asOf now := by
    simp only [tier1]
    rw [List.mem_filter]
    refine ⟨hx0su, ?_⟩
    simp only [decide_eq_true_eq]
    rw [hx0k]
    exact List.mem_map_of_mem key hr0
  have ht1 : tier1 cfg txs asOf now ≠ [] := List.ne_nil_of_mem hx0t
  obtain ⟨t, ts0, hts⟩ := List.exists_cons_of_ne_nil ht1
  rw [hts] at h2
  simp only [List.headD_cons] at h2
  obtain ⟨q1, rest1, hq1, he1, _⟩ := addPass_decomp cfg ts0 ([] ++ [t])
  have hA1 : addPass cfg [] (tier1 cfg txs asOf now) = [t] ++ q1 := by
    rw [hts]
    simp only [addPass, h2, if_pos]
    rw [he1]
    simp
  have hEB : ∃ p2 p3 p4 : List Transaction,
      (sample cfg txs wd asOf now).1 =
        addPass cfg (addPass cfg (addPass cfg
          (addPass cfg [] (tier1 cfg txs asOf now)) p2) p3) p4 :=
    ⟨_, _, _, by rw [hres]; rfl⟩
  obtain ⟨P2, P3, P4, hEB⟩ := hEB
  obtain ⟨s2, s3, s4, hcomp⟩ := fourPass_decomp cfg
    (tier1 cfg txs asOf now) P2 P3 P4
  refine ⟨[t] ++ q1, s2 ++ (s3 ++ s4), ?_, by simp, ?_⟩
  · rw [hEB, hcomp, hA1]
  · intro x hx
    have hx' : x ∈ addPass cfg [] (tier1 cfg txs asOf now) := by
      rw [hA1]
      exact hx
    have hxt : x ∈ tier1 cfg txs asOf now := by
      rcases addPass_subset cfg _ _ x hx' with h | h
      · simp at h
      · exact h
    have hxf : x ∈ sortedUnionOf cfg txs asOf now ∧
        ∃ a ∈ recentPool cfg txs asOf now, key a = key x := by
      simpa [tier1] using hxt
    have hxu : x ∈ unionPools (recentPool cfg txs asOf now) (topXPool cfg txs)
        (stratifiedSample txs cfg.stratified_n) := by
      have hx1 := hxf.1
      simp only [sortedUnionOf] at hx1
      have := (mem_pySorted tsLe _ x).mp hx1
      simpa [unionOf] using this
    have hxk : key x ∈ (recentPool cfg txs asOf now).map key := by
      obtain ⟨a, ha1, ha2⟩ := hxf.2
      exact ha2 ▸ List.mem_map_of_mem key ha1
    exact poolMem_of_mem x _ (unionPools_mem_recent _ _ _ x hxu hxk)

/-- C4 (witness): the amended recency priority instantiated at a concrete
input with one fitting recent transaction. -/
theorem sample_recent_priority_witness :
    recentPool cfgDefault [txRec] none 0 ≠ [] ∧
    wouldFit cfgDefault [] ((tier1 cfgDefault [txRec] none 0).headD dfltTx) =
      true ∧
    (∃ r1 rest : List Transaction,
      (sample cfgDefault [txRec] 180 none 0).1 = r1 ++ rest ∧ r1 ≠ [] ∧
      ∀ x ∈ r1, poolMem x (recentPool cfgDefault [txRec] none 0) = true) :=
  ⟨by decide, by decide,
    sample_recent_priority cfgDefault [txRec] 180 none 0 (by decide) (by decide)⟩
